/-
Verification of the smcprober alerting and metric-registry core.

Shallow Lean embedding of:
  * alert/rule.go          — Metric, AlertRule, condition builders (ThresholdAbove/
                             Below/Between/Equals, FloatEquals)
  * alert (engine, actions) — AlertingEngine.Evaluate, LogAction, NoOpAction,
                             MultiAction
  * metric/registry.go     — NamespacedRegistry (GetCollectorByName, Register,
                             GetOrCreate{Gauge,GaugeVec,Counter,CounterVec,
                             Histogram,HistogramVec}), both sequentially and as a
                             small interleaving model of concurrent callers
  * metric/converter.go    — CombinedConverter.Convert dispatch
  * smartcitizen (device)  — DeviceDetail.StateValue
  * smartcitizen/api_exporter.go — processAPIData / convertDeviceSensorsToMetrics
  * cmd/smcjob/main.go     — initAlertEngine rule wiring, SendNotificationAction

Go float64 values are embedded as rationals (ℚ); Go maps keyed by string are
embedded as association lists; observable side effects (logging, notification
sends, converter invocations) are embedded as explicit event traces.
-/
import Mathlib

namespace Smcprober

/-! ## alert/rule.go : data model -/

/-- alert/rule.go: `DefaultFloatTolerance = 0.0001`. -/
def DefaultFloatTolerance : ℚ := 0.0001

/-- alert/rule.go: `Metric` struct (Name, Description, Value, Unit, Timestamp);
the float64 Value is embedded as ℚ. -/
structure Metric where
  Name : String
  Description : String := ""
  Value : ℚ
  Unit : String := ""
  Timestamp : ℤ := 0
deriving DecidableEq

/-- alert/rule.go: `RuleCondition func(metric Metric) bool`. -/
def RuleCondition : Type := Metric → Bool

/-- Observable events emitted by rule actions: LogAction output, a sent
notification (topic, title, message), or an arbitrary test-action marker. -/
inductive ActionEvent
  | logAlert (ruleID ruleName metricName : String)
  | notify (topic title message : String)
  | custom (tag : String)
deriving DecidableEq

/-- The identifying fields of an `AlertRule` that actions may read
(`rule.ID`, `rule.Name`, `rule.MetricName`, `rule.Enabled`). -/
structure RuleMeta where
  ID : String
  Name : String
  MetricName : String
  Enabled : Bool
deriving DecidableEq

/-- alert: `RuleAction func(metric Metric, rule AlertRule) error`, embedded as a
function returning the emitted action events plus an optional error string. -/
def RuleAction : Type := Metric → RuleMeta → List ActionEvent × Option String

/-- alert/rule.go: `AlertRule` struct: ID, Name, MetricName, Enabled,
Condition, Action. -/
structure AlertRule extends RuleMeta where
  Condition : RuleCondition
  Action : RuleAction

/-- alert/rule.go: `FloatEquals(a, b, tolerance)`: `math.Abs(a-b) <= tolerance`. -/
def FloatEquals (a b tolerance : ℚ) : Bool := |a - b| ≤ tolerance

/-- alert/rule.go: `ThresholdAbove(threshold)`: `metric.Value > threshold`. -/
def ThresholdAbove (threshold : ℚ) : RuleCondition :=
  fun metric => metric.Value > threshold

/-- alert/rule.go: `ThresholdBelow(threshold)`: `metric.Value < threshold`. -/
def ThresholdBelow (threshold : ℚ) : RuleCondition :=
  fun metric => metric.Value < threshold

/-- alert/rule.go: `ThresholdBetween(min, max)`. -/
def ThresholdBetween (lo hi : ℚ) : RuleCondition :=
  fun metric => metric.Value ≥ lo && metric.Value ≤ hi

/-- alert/rule.go: `ThresholdEquals(target)`:
`FloatEquals(metric.Value, target, DefaultFloatTolerance)`. -/
def ThresholdEquals (target : ℚ) : RuleCondition :=
  fun metric => FloatEquals metric.Value target DefaultFloatTolerance

/-! ## alert action builders -/

/-- alert: `LogAction(logger)`: logs the alert, returns nil. -/
def LogAction : RuleAction :=
  fun metric rule => ([ActionEvent.logAlert rule.ID rule.Name metric.Name], none)

/-- alert: `NoOpAction()`: does nothing, returns nil. -/
def NoOpAction : RuleAction := fun _ _ => ([], none)

/-- Helper for `MultiAction`: run actions in order, stop at the first error. -/
def runActions : List RuleAction → Metric → RuleMeta → List ActionEvent × Option String
  | [], _, _ => ([], none)
  | a :: rest, metric, rule =>
    match a metric rule with
    | (evs, some e) => (evs, some e)
    | (evs, none) =>
      let r := runActions rest metric rule
      (evs ++ r.1, r.2)

/-- alert: `MultiAction(actions...)`: runs each action in order and returns the
first error (short-circuit), nil if all succeed. -/
def MultiAction (actions : List RuleAction) : RuleAction :=
  fun metric rule => runActions actions metric rule

/-! ## alert engine: AlertingEngine.Evaluate

`Evaluate` iterates over the stored rules; the Go `for range` over the rule map
is embedded as a walk over a rule list.  Every `logger` call and every action
invocation of the Go loop body is recorded in an event trace, so that "the
action was invoked" and "the error was logged" are observable; `Evaluate`
itself returns only that trace (its Go counterpart returns nothing, so no
error can propagate to the caller). -/

/-- One entry of the observable trace of `Evaluate`: the Go code's log calls
plus the events produced by invoked actions. -/
inductive LogEvent
  | skipDifferentMetric (ruleID : String)
  | skipDisabled (ruleID : String)
  | conditionMet (ruleID : String)
  | actionOutput (e : ActionEvent)
  | actionFailed (ruleID : String) (err : String)
  | conditionNotMet (ruleID : String)
deriving DecidableEq

/-- The body of the `for` loop of `AlertingEngine.Evaluate` for one rule:
skip on metric-name mismatch, skip when disabled, otherwise test the condition
and invoke the action, logging (never returning) an action error. -/
def evalRule (metric : Metric) (rule : AlertRule) : List LogEvent :=
  if rule.MetricName ≠ metric.Name then [LogEvent.skipDifferentMetric rule.ID]
  else if rule.Enabled = false then [LogEvent.skipDisabled rule.ID]
  else if rule.Condition metric then
    let r := rule.Action metric rule.toRuleMeta
    LogEvent.conditionMet rule.ID :: (r.1.map LogEvent.actionOutput ++
      match r.2 with
      | some e => [LogEvent.actionFailed rule.ID e]
      | none => [])
  else [LogEvent.conditionNotMet rule.ID]

/-- `AlertingEngine.Evaluate(metric)`: run the loop body for every stored
rule; the returned trace is the concatenation of the per-rule traces. -/
def Evaluate : List AlertRule → Metric → List LogEvent
  | [], _ => []
  | rule :: rest, metric => evalRule metric rule ++ Evaluate rest metric

/-- `AlertingEngine.AddRule(rule)`: insert into the rule map, replacing any
rule with the same ID. -/
def AddRule (rules : List AlertRule) (rule : AlertRule) : List AlertRule :=
  if rules.any (fun r => r.ID == rule.ID) then
    rules.map (fun r => if r.ID == rule.ID then rule else r)
  else rules ++ [rule]

/-- `AlertingEngine.RemoveRule(ruleID)`: delete from the rule map if present. -/
def RemoveRule (rules : List AlertRule) (ruleID : String) : List AlertRule :=
  rules.filter (fun r => r.ID ≠ ruleID)

/-- A rule is eligible for a metric when its target metric name matches, it is
enabled, and its condition holds on the metric — exactly the three guards of
the `Evaluate` loop body. -/
def eligible (metric : Metric) (rule : AlertRule) : Bool :=
  rule.MetricName == metric.Name && rule.Enabled && rule.Condition metric

/-- Trace reader: the rule ID named by a `conditionMet` entry; the Go code
logs `conditionMet` exactly when it is about to invoke the action. -/
def invokedOf : LogEvent → Option String
  | LogEvent.conditionMet ruleID => some ruleID
  | _ => none

/-- The rule IDs whose actions `Evaluate` invoked, read off the trace. -/
def invokedRuleIDs (trace : List LogEvent) : List String :=
  trace.filterMap invokedOf

/-! ## metric/registry.go : NamespacedRegistry, sequential model

A collector is identified by its kind (which Go constructor built it) and a
creation serial number (Go pointer identity: two collectors built by separate
constructor calls are distinct instances).  The registry state carries the
`collectors` map (an association list keyed by logical name, in insertion
order), the set of names registered with the prometheus default registerer
(`prometheus.Register` refuses a second registration of the same
namespace+name), and the next instance serial. -/

/-- Which of the six prometheus constructors built a collector. -/
inductive CollectorKind
  | gauge | gaugeVec | counter | counterVec | histogram | histogramVec
deriving DecidableEq

/-- A collector instance: its kind plus its identity. -/
structure Collector where
  kind : CollectorKind
  id : Nat
deriving DecidableEq

/-- The state of a `NamespacedRegistry` (plus the prometheus default
registerer it talks to, and the instance-allocation counter). -/
structure RegistryState where
  collectors : List (String × Collector) := []
  promRegistered : List String := []
  nextId : Nat := 0
deriving DecidableEq

/-- A fresh registry, as built by `NewNamespacedRegistry`. -/
def emptyRegistry : RegistryState := {}

/-- `NamespacedRegistry.GetCollectorByName(name)`: map lookup. -/
def GetCollectorByName (s : RegistryState) (name : String) : Option Collector :=
  (s.collectors.find? (fun p => p.1 == name)).map (fun p => p.2)

/-- `NamespacedRegistry.Register(name, collector)`: return unchanged if the
name is already tracked; otherwise try `prometheus.Register`, which fails
(logged, swallowed) if the name is already registered there; on success store
the collector under the name. -/
def Register (s : RegistryState) (name : String) (collector : Collector) :
    RegistryState :=
  match GetCollectorByName s name with
  | some _ => s
  | none =>
    if name ∈ s.promRegistered then s
    else { s with
            collectors := s.collectors ++ [(name, collector)],
            promRegistered := name :: s.promRegistered }

/-- Common shape of the six `GetOrCreate<Kind>` methods: look the name up and
return the stored collector after an unchecked type assertion to the requested
kind (`none` models the panic of a failed assertion); otherwise build a fresh
collector of the kind and `Register` it, returning the fresh instance. -/
def getOrCreate (s : RegistryState) (name : String) (kind : CollectorKind) :
    Option Collector × RegistryState :=
  match GetCollectorByName s name with
  | some c => if c.kind = kind then (some c, s) else (none, s)
  | none =>
    let c : Collector := { kind := kind, id := s.nextId }
    (some c, Register { s with nextId := s.nextId + 1 } name c)

/-- `NamespacedRegistry.GetOrCreateGauge(name, help)`. -/
def GetOrCreateGauge (s : RegistryState) (name help : String) :
    Option Collector × RegistryState :=
  getOrCreate s name CollectorKind.gauge

/-- `NamespacedRegistry.GetOrCreateGaugeVec(name, help, labels)`. -/
def GetOrCreateGaugeVec (s : RegistryState) (name help : String)
    (labels : List String) : Option Collector × RegistryState :=
  getOrCreate s name CollectorKind.gaugeVec

/-- `NamespacedRegistry.GetOrCreateCounter(name, help)`. -/
def GetOrCreateCounter (s : RegistryState) (name help : String) :
    Option Collector × RegistryState :=
  getOrCreate s name CollectorKind.counter

/-- `NamespacedRegistry.GetOrCreateCounterVec(name, help, labels)`. -/
def GetOrCreateCounterVec (s : RegistryState) (name help : String)
    (labels : List String) : Option Collector × RegistryState :=
  getOrCreate s name CollectorKind.counterVec

/-- `NamespacedRegistry.GetOrCreateHistogram(name, help, buckets)`. -/
def GetOrCreateHistogram (s : RegistryState) (name help : String)
    (buckets : List ℚ) : Option Collector × RegistryState :=
  getOrCreate s name CollectorKind.histogram

/-- `NamespacedRegistry.GetOrCreateHistogramVec(name, help, buckets, labels)`. -/
def GetOrCreateHistogramVec (s : RegistryState) (name help : String)
    (buckets : List ℚ) (labels : List String) : Option Collector × RegistryState :=
  getOrCreate s name CollectorKind.histogramVec

/-- One call against the registry interface of metric/registry.go. -/
inductive RegOp
  | register (name : String) (collector : Collector)
  | getGauge (name help : String)
  | getGaugeVec (name help : String) (labels : List String)
  | getCounter (name help : String)
  | getCounterVec (name help : String) (labels : List String)
  | getHistogram (name help : String) (buckets : List ℚ)
  | getHistogramVec (name help : String) (buckets : List ℚ) (labels : List String)

/-- The registry state after one interface call (the returned collector, if
any, is dropped). -/
def applyRegOp (s : RegistryState) : RegOp → RegistryState
  | RegOp.register name collector => Register s name collector
  | RegOp.getGauge name help => (GetOrCreateGauge s name help).2
  | RegOp.getGaugeVec name help labels => (GetOrCreateGaugeVec s name help labels).2
  | RegOp.getCounter name help => (GetOrCreateCounter s name help).2
  | RegOp.getCounterVec name help labels => (GetOrCreateCounterVec s name help labels).2
  | RegOp.getHistogram name help buckets => (GetOrCreateHistogram s name help buckets).2
  | RegOp.getHistogramVec name help buckets labels =>
      (GetOrCreateHistogramVec s name help buckets labels).2

/-- The registry state after a sequence of interface calls. -/
def applyRegOps (s : RegistryState) (ops : List RegOp) : RegistryState :=
  ops.foldl applyRegOp s

/-- Trace reader: the notification carried by an `actionOutput` entry. -/
def notifyOf : LogEvent → Option (String × String × String)
  | LogEvent.actionOutput (ActionEvent.notify topic title message) =>
      some (topic, title, message)
  | _ => none

/-- The notifications sent during a trace, as (topic, title, message). -/
def sentNotifications (trace : List LogEvent) : List (String × String × String) :=
  trace.filterMap notifyOf

/-! ## metric/registry.go : NamespacedRegistry under concurrent callers

Interleaving model of N goroutines all calling `GetOrCreateGauge` for the same
logical name.  Each caller executes five atomic steps, one per lock-protected
(or thread-local) region of the Go code:

1. `GetCollectorByName` under `RLock` — hit returns the stored collector
   (asserted to the requested kind), miss proceeds;
2. `prometheus.NewGauge` — thread-local creation of a fresh instance;
3. `Register`'s own `GetCollectorByName` under `RLock` — hit returns the
   caller's fresh instance, miss proceeds;
4. `prometheus.Register` (internally locked) — already-registered yields an
   error that `Register` logs and swallows, returning the caller's fresh
   instance; otherwise the name becomes registered;
5. the store under `Lock` (`r.collectors[name] = collector`) — and the caller
   returns its fresh instance.

Since every caller targets one fixed name and kind, the shared state reduces
to the binding for that name, the prometheus-registered flag for that name,
the instance-allocation counter, and a store-write counter (instrumentation
counting executions of step 5). -/

/-- The program counter of one `GetOrCreateGauge` caller; `created`, `checked`,
`registered` and `done` carry the caller's collector instance id. -/
inductive CallerState
  | start
  | missed
  | created (c : Nat)
  | checked (c : Nat)
  | registered (c : Nat)
  | done (c : Nat)
deriving DecidableEq

/-- Shared state of the race: all callers, the `collectors` binding for the
contended name, the prometheus-registered flag for it, the allocation counter,
and the number of executed stores. -/
structure RaceState where
  threads : List CallerState
  stored : Option Nat
  promReg : Bool
  nextId : Nat
  storeWrites : Nat
deriving DecidableEq

/-- One atomic step of one caller (see the step list above). -/
def stepCaller (s : RaceState) : CallerState → CallerState × RaceState
  | CallerState.start =>
    match s.stored with
    | some c => (CallerState.done c, s)
    | none => (CallerState.missed, s)
  | CallerState.missed =>
    (CallerState.created s.nextId, { s with nextId := s.nextId + 1 })
  | CallerState.created c =>
    match s.stored with
    | some _ => (CallerState.done c, s)
    | none => (CallerState.checked c, s)
  | CallerState.checked c =>
    match s.promReg with
    | true => (CallerState.done c, s)
    | false => (CallerState.registered c, { s with promReg := true })
  | CallerState.registered c =>
    (CallerState.done c,
      { s with stored := some c, storeWrites := s.storeWrites + 1 })
  | CallerState.done c => (CallerState.done c, s)

/-- Run one step of the caller at index `i` (no-op on an invalid index). -/
def raceStep (s : RaceState) (i : Nat) : RaceState :=
  match s.threads.get? i with
  | none => s
  | some t =>
    let r := stepCaller s t
    { r.2 with threads := r.2.threads.set i r.1 }

/-- Run a whole schedule (a list of caller indices). -/
def raceRun (s : RaceState) : List Nat → RaceState
  | [] => s
  | i :: rest => raceRun (raceStep s i) rest

/-- Initial state: `n` callers about to enter `GetOrCreateGauge`, nothing
stored or registered. -/
def raceInit (n : Nat) : RaceState :=
  { threads := List.replicate n CallerState.start, stored := none,
    promReg := false, nextId := 0, storeWrites := 0 }

/-- Is a caller inside step 5 (past `prometheus.Register`, store pending)? -/
def isRegisteredCaller : CallerState → Bool
  | CallerState.registered _ => true
  | _ => false

/-- Has a caller returned? -/
def isDoneCaller : CallerState → Bool
  | CallerState.done _ => true
  | _ => false

/-- A concrete two-caller schedule: both observe "missing", caller 0 then
creates, registers and stores its instance; caller 1 then creates its own
instance and, finding the name present in `Register`, returns that own
instance. -/
def raceSched : List Nat := [0, 1, 0, 0, 0, 0, 1, 1]

/-- The invariant of the race model: before the name is prometheus-registered
nothing is stored and no caller has returned; once it is, the callers past
`prometheus.Register` plus the executed stores account for exactly one token;
and a collector is stored exactly when a store was executed. -/
def RaceInv (s : RaceState) : Prop :=
  (s.promReg = false →
    s.threads.countP isRegisteredCaller = 0 ∧ s.storeWrites = 0
    ∧ s.stored = none ∧ ∀ t ∈ s.threads, isDoneCaller t = false)
  ∧ (s.promReg = true →
      s.threads.countP isRegisteredCaller + s.storeWrites = 1)
  ∧ (s.stored = none ↔ s.storeWrites = 0)


/-! ## metric/converter.go : Converter and CombinedConverter

A domain value is modelled by its runtime type tag (`reflect.TypeOf(data)
.Name()`); a sub-converter by its `Match` predicate on type names and its
`Convert` outcome (`none` = nil error).  `CombinedConverter.Convert` is
instrumented with the list of indices (registration order) of the
sub-converters it invokes. -/

/-- A value passed to `CombinedConverter.Convert`, reduced to its runtime
type tag. -/
structure MValue where
  typeName : String
deriving DecidableEq

/-- metric/converter.go: `getTypeName(data)`: `reflect.TypeOf(data).Name()`. -/
def getTypeName (v : MValue) : String := v.typeName

/-- metric/converter.go: the `Converter` interface — `Match(name) bool` and
`Convert(registry, data) error` (the registry writes are not observed here;
only the returned error). -/
structure Converter where
  Match : String → Bool
  Convert : MValue → Option String

/-- The loop of `CombinedConverter.Convert`, carrying the index of the head
converter: skip non-matching converters; invoke a matching one and return its
error immediately if non-nil. -/
def convertFrom (cs : List Converter) (v : MValue) (i : Nat) :
    List Nat × Option String :=
  match cs with
  | [] => ([], none)
  | c :: rest =>
    if c.Match (getTypeName v) then
      match c.Convert v with
      | some e => ([i], some e)
      | none =>
        let r := convertFrom rest v (i + 1)
        (i :: r.1, r.2)
    else convertFrom rest v (i + 1)

/-- `CombinedConverter.Convert(registry, data)`: walk the added converters in
registration order; the first component is the instrumented list of invoked
converter indices, the second the returned error (nil = `none`). -/
def CombinedConvert (cs : List Converter) (v : MValue) :
    List Nat × Option String :=
  convertFrom cs v 0

/-- The indices of the converters whose `Match` accepts the tag, starting the
numbering at `i`. -/
def matchingIdxFrom (cs : List Converter) (tag : String) (i : Nat) : List Nat :=
  match cs with
  | [] => []
  | c :: rest =>
    if c.Match tag then i :: matchingIdxFrom rest tag (i + 1)
    else matchingIdxFrom rest tag (i + 1)

/-- The registration-order indices of the converters matching a tag. -/
def matchingIdx (cs : List Converter) (tag : String) : List Nat :=
  matchingIdxFrom cs tag 0

/-- A converter that matches every tag and always fails. -/
def failingConverter : Converter :=
  { Match := fun _ => true, Convert := fun _ => some "boom" }

/-- A converter that matches every tag and always succeeds. -/
def okConverter : Converter :=
  { Match := fun _ => true, Convert := fun _ => none }

/-- A sample value carrying the `DeviceSensor` type tag. -/
def demoValue : MValue := { typeName := "DeviceSensor" }

/-! ## smartcitizen/api_exporter.go : processAPIData

One poll cycle over a batch of devices.  Each device carries the outcome the
converter produces for its detail record and, per sensor, the outcome for that
sensor; the walk emits an event per conversion attempt, logged error and
data-error counter increment, exactly as the Go loops do. -/

/-- A device sensor as seen by the conversion pass: its ID and the outcome of
`converter.Convert` on it (`none` = success). -/
structure MSensor where
  ID : Nat
  convErr : Option String
deriving DecidableEq

/-- A device as seen by the conversion pass: its ID, the outcome of
`converter.Convert` on its detail record, and its sensors. -/
structure MDevice where
  ID : Nat
  detailErr : Option String
  sensors : List MSensor
deriving DecidableEq

/-- Observable events of one poll cycle of `processAPIData`. -/
inductive ExpEvent
  | detailConverted (devID : Nat)
  | detailErrorLogged (devID : Nat)
  | sensorConverted (devID sensorID : Nat)
  | sensorErrorLogged (devID sensorID : Nat)
  | dataErrorInc
  | deviceSkippedLogged (devID : Nat)
deriving DecidableEq

/-- `APIExporter.convertDeviceDetailToMetrics(detail)`: convert the detail
record; on error log it, bump the data-error counter and return the error. -/
def convertDeviceDetailToMetrics (d : MDevice) :
    List ExpEvent × Option String :=
  match d.detailErr with
  | some e => ([ExpEvent.detailErrorLogged d.ID, ExpEvent.dataErrorInc], some e)
  | none => ([ExpEvent.detailConverted d.ID], none)

/-- `APIExporter.convertDeviceSensorsToMetrics(deviceUUID, sensors)`: convert
each sensor in order; on the first error log it, bump the data-error counter
and return the error, aborting the remaining sensors. -/
def convertDeviceSensorsToMetrics (devID : Nat) :
    List MSensor → List ExpEvent × Option String
  | [] => ([], none)
  | s :: rest =>
    match s.convErr with
    | some e =>
      ([ExpEvent.sensorErrorLogged devID s.ID, ExpEvent.dataErrorInc], some e)
    | none =>
      let r := convertDeviceSensorsToMetrics devID rest
      (ExpEvent.sensorConverted devID s.ID :: r.1, r.2)

/-- The body of the device loop of `APIExporter.processAPIData`: convert the
detail (on error log and `continue`, skipping the sensors), then the sensors
(on error log and `continue`). -/
def processDevice (d : MDevice) : List ExpEvent :=
  let rd := convertDeviceDetailToMetrics d
  match rd.2 with
  | some _ => rd.1 ++ [ExpEvent.deviceSkippedLogged d.ID]
  | none =>
    let rs := convertDeviceSensorsToMetrics d.ID d.sensors
    match rs.2 with
    | some _ => rd.1 ++ rs.1 ++ [ExpEvent.deviceSkippedLogged d.ID]
    | none => rd.1 ++ rs.1

/-- `APIExporter.processAPIData(data)`: the loop over `data.Devices`. -/
def processAPIData : List MDevice → List ExpEvent
  | [] => []
  | d :: rest => processDevice d ++ processAPIData rest

/-- A device whose first sensor fails to convert and whose second converts
fine. -/
def demoDevice : MDevice :=
  { ID := 0, detailErr := none,
    sensors := [{ ID := 0, convErr := some "missing field" },
                { ID := 1, convErr := none }] }

/-- A device whose detail record fails to convert. -/
def demoDeviceDetailErr : MDevice :=
  { ID := 5, detailErr := some "bad schema",
    sensors := [{ ID := 9, convErr := none }] }

/-! ## smartcitizen (device model) : DeviceDetail.StateValue -/

/-- smartcitizen: `DeviceStateOnline = 1.0`. -/
def DeviceStateOnline : ℚ := 1.0

/-- smartcitizen: `DeviceStateOffline = 0.0`. -/
def DeviceStateOffline : ℚ := 0.0

/-- smartcitizen: `DeviceStateSleeping = 0.5`. -/
def DeviceStateSleeping : ℚ := 0.5

/-- smartcitizen: `DeviceStateUnknown = -1.0`. -/
def DeviceStateUnknown : ℚ := -1.0

/-- smartcitizen: `DeviceDetail` (the fields `StateValue` reads). -/
structure DeviceDetail where
  ID : Nat := 0
  UUID : String := ""
  Name : String := ""
  State : String
deriving DecidableEq

/-- smartcitizen: `DeviceDetail.StateValue()`: the `switch d.State` mapping —
`"online", "has_published"` to online, `"offline"` to offline, `"sleeping"`
to sleeping, default to unknown. -/
def StateValue (d : DeviceDetail) : ℚ :=
  match d.State with
  | "online" => DeviceStateOnline
  | "has_published" => DeviceStateOnline
  | "offline" => DeviceStateOffline
  | "sleeping" => DeviceStateSleeping
  | _ => DeviceStateUnknown

/-! ## cmd/smcjob/main.go : initAlertEngine and actions -/

/-- cmd/smcjob: `DefaultBatterySensorName`. -/
def DefaultBatterySensorName : String := "Battery SCK"

/-- cmd/smcjob: `DeviceStateMetricName`. -/
def DeviceStateMetricName : String := "Device State"

/-- cmd/smcjob: `SendNotificationAction(notifier, topic, message)`: sends a
notification with the given topic, title `"Alert: " + rule.Name` and the
message; the ntfy transport is modelled as delivering successfully. -/
def SendNotificationAction (topic message : String) : RuleAction :=
  fun _ rule =>
    ([ActionEvent.notify topic ("Alert: " ++ rule.Name) message], none)

/-- cmd/smcjob: `initAlertEngine(appConfig, notifier, logger)`: the engine
with its five configured rules, parametrized by
`appConfig.BatterySensorName` and `appConfig.Ntfy.Topic`. -/
def initAlertEngine (batterySensorName topic : String) : List AlertRule :=
  AddRule (AddRule (AddRule (AddRule (AddRule []
    { ID := "battery_ok", Name := "Battery Level OK",
      MetricName := batterySensorName, Enabled := true,
      Condition := fun metric =>
        metric.Name == batterySensorName && metric.Value ≥ 15.0,
      Action := LogAction })
    { ID := "battery_low", Name := "Battery Level Low",
      MetricName := batterySensorName, Enabled := true,
      Condition := fun metric =>
        metric.Name == batterySensorName && metric.Value < 15.0
          && metric.Value ≥ 10.0,
      Action := MultiAction [LogAction,
        SendNotificationAction topic "Battery level is low"] })
    { ID := "battery_critical_low", Name := "Battery Level Low",
      MetricName := batterySensorName, Enabled := true,
      Condition := fun metric =>
        metric.Name == batterySensorName && metric.Value < 10.0,
      Action := MultiAction [LogAction,
        SendNotificationAction topic "Battery level is critically low"] })
    { ID := "device_online", Name := "Device Online",
      MetricName := DeviceStateMetricName, Enabled := true,
      Condition := ThresholdEquals DeviceStateOnline,
      Action := LogAction })
    { ID := "device_offline", Name := "Device Offline",
      MetricName := DeviceStateMetricName, Enabled := true,
      Condition := ThresholdEquals DeviceStateOffline,
      Action := MultiAction [LogAction,
        SendNotificationAction topic "Device is offline"] }

/-! ## Demo rules for the action-error isolation scenario -/

/-- First of three enabled rules targeting the same metric name; its action
emits the marker `a1` and succeeds. -/
def isolationRule1 : AlertRule :=
  { ID := "r1", Name := "Rule 1", MetricName := "Battery SCK", Enabled := true,
    Condition := fun _ => true,
    Action := fun _ _ => ([ActionEvent.custom "a1"], none) }

/-- Second rule: its action always errors. -/
def isolationRule2 : AlertRule :=
  { ID := "r2", Name := "Rule 2", MetricName := "Battery SCK", Enabled := true,
    Condition := fun _ => true,
    Action := fun _ _ => ([], some "boom") }

/-- Third rule: its action emits the marker `a3` and succeeds. -/
def isolationRule3 : AlertRule :=
  { ID := "r3", Name := "Rule 3", MetricName := "Battery SCK", Enabled := true,
    Condition := fun _ => true,
    Action := fun _ _ => ([ActionEvent.custom "a3"], none) }

/-- The three-rule set whose middle action always errors. -/
def isolationRules : List AlertRule :=
  [isolationRule1, isolationRule2, isolationRule3]

/-- A battery reading that makes all three isolation rules eligible. -/
def isolationMetric : Metric := { Name := "Battery SCK", Value := 12 }

end Smcprober

namespace Smcprober

/-! # Theorems -/

/-! ## Alert-engine trace lemmas -/

theorem invokedRuleIDs_append (t1 t2 : List LogEvent) :
    invokedRuleIDs (t1 ++ t2) = invokedRuleIDs t1 ++ invokedRuleIDs t2 :=
  List.filterMap_append t1 t2 _

theorem invokedRuleIDs_actionOutput (evs : List ActionEvent) :
    List.filterMap invokedOf (evs.map LogEvent.actionOutput) = [] := by
  induction evs with
  | nil => rfl
  | cons e rest ih =>
    simp only [List.map_cons, List.filterMap_cons, invokedOf] at ih ⊢
    exact ih

/-- The trace of one loop iteration names the rule as invoked exactly when the
rule is eligible for the metric. -/
theorem invokedRuleIDs_evalRule (metric : Metric) (rule : AlertRule) :
    invokedRuleIDs (evalRule metric rule) =
      if eligible metric rule then [rule.ID] else [] := by
  unfold evalRule eligible
  by_cases h1 : rule.MetricName = metric.Name
  · by_cases h2 : rule.Enabled
    · by_cases h3 : rule.Condition metric
      · simp only [h1, h2, h3, ne_eq, not_true_eq_false, Bool.false_eq_true,
          Bool.true_eq_false, if_false, if_true, beq_self_eq_true,
          Bool.true_and, Bool.and_self]
        rw [invokedRuleIDs, List.filterMap_cons]
        cases hact : (rule.Action metric rule.toRuleMeta).2 with
        | none =>
          simp [invokedOf, hact, List.filterMap_append, invokedRuleIDs_actionOutput]
        | some e =>
          simp [invokedOf, hact, List.filterMap_append, invokedRuleIDs_actionOutput]
      · simp [h1, h2, h3, invokedRuleIDs, invokedOf]
    · simp [h1, h2, invokedRuleIDs, invokedOf]
  · simp [h1, invokedRuleIDs, invokedOf]

/-- Characterization of invocation: `Evaluate` invokes exactly the eligible
rules' actions, in rule order, no matter what any action returns. -/
theorem invokedRuleIDs_Evaluate (rules : List AlertRule) (metric : Metric) :
    invokedRuleIDs (Evaluate rules metric) =
      (rules.filter (eligible metric)).map (fun r => r.ID) := by
  induction rules with
  | nil => rfl
  | cons rule rest ih =>
    rw [Evaluate, invokedRuleIDs_append, ih, invokedRuleIDs_evalRule]
    by_cases h : eligible metric rule <;> simp [h]

/-! ## Sequential registry lemmas -/

/-- `Register` never disturbs an existing binding. -/
theorem GetCollectorByName_Register_mono (s : RegistryState)
    (name : String) (c : Collector) (k : String) (v : Collector)
    (h : GetCollectorByName s k = some v) :
    GetCollectorByName (Register s name c) k = some v := by
  unfold Register
  cases hl : GetCollectorByName s name with
  | some _ => exact h
  | none =>
    by_cases hp : name ∈ s.promRegistered
    · simp only [hp, if_true]
      exact h
    · simp only [hp, if_false]
      unfold GetCollectorByName at h ⊢
      obtain ⟨p, hp1, hp2⟩ := Option.map_eq_some'.mp h
      simp [List.find?_append, hp1, hp2]

/-- `getOrCreate` never disturbs an existing binding. -/
theorem GetCollectorByName_getOrCreate_mono (s : RegistryState)
    (name : String) (kind : CollectorKind) (k : String) (v : Collector)
    (h : GetCollectorByName s k = some v) :
    GetCollectorByName (getOrCreate s name kind).2 k = some v := by
  unfold getOrCreate
  cases hl : GetCollectorByName s name with
  | some c =>
    dsimp only
    by_cases hk : c.kind = kind <;> simp [hk, h]
  | none =>
    dsimp only
    exact GetCollectorByName_Register_mono _ name _ k v h

/-- No registry-interface call disturbs an existing binding. -/
theorem GetCollectorByName_applyRegOp_mono (s : RegistryState) (op : RegOp)
    (k : String) (v : Collector) (h : GetCollectorByName s k = some v) :
    GetCollectorByName (applyRegOp s op) k = some v := by
  cases op with
  | register name collector => exact GetCollectorByName_Register_mono s name collector k v h
  | getGauge name help => exact GetCollectorByName_getOrCreate_mono s name _ k v h
  | getGaugeVec name help labels => exact GetCollectorByName_getOrCreate_mono s name _ k v h
  | getCounter name help => exact GetCollectorByName_getOrCreate_mono s name _ k v h
  | getCounterVec name help labels => exact GetCollectorByName_getOrCreate_mono s name _ k v h
  | getHistogram name help buckets => exact GetCollectorByName_getOrCreate_mono s name _ k v h
  | getHistogramVec name help buckets labels =>
      exact GetCollectorByName_getOrCreate_mono s name _ k v h

/-- No sequence of registry-interface calls disturbs an existing binding: the
stored collector set only grows. -/
theorem GetCollectorByName_applyRegOps_mono (s : RegistryState)
    (ops : List RegOp) (k : String) (v : Collector)
    (h : GetCollectorByName s k = some v) :
    GetCollectorByName (applyRegOps s ops) k = some v := by
  induction ops generalizing s with
  | nil => exact h
  | cons op rest ih =>
    exact ih (applyRegOp s op) (GetCollectorByName_applyRegOp_mono s op k v h)

/-- C1: once a collector is stored for a name, the binding survives any later
sequence of registry calls; a later `GetOrCreateGauge` for that name (of the
stored kind) returns the identical first instance and leaves the registry
unchanged; and `Register` with an already-present name leaves the registry
unchanged. -/
theorem registry_reuses_first_collector (s : RegistryState) (name : String)
    (c : Collector) (ops : List RegOp) (help : String)
    (h : GetCollectorByName s name = some c) :
    GetCollectorByName (applyRegOps s ops) name = some c
    ∧ (c.kind = CollectorKind.gauge →
        GetOrCreateGauge (applyRegOps s ops) name help =
          (some c, applyRegOps s ops))
    ∧ (∀ c2, Register s name c2 = s) := by
  have hmono := GetCollectorByName_applyRegOps_mono s ops name c h
  refine ⟨hmono, fun hkind => ?_, fun c2 => ?_⟩
  · unfold GetOrCreateGauge getOrCreate
    rw [hmono]
    simp [hkind]
  · unfold Register
    rw [h]

/-- Witness for `registry_reuses_first_collector`: create a gauge under
"battery_level", run two more registry calls (one for a different name, one
conflicting `Register` for the same name), and observe the original binding,
reuse, and no-op `Register`. -/
theorem registry_reuses_first_collector_witness :
    GetCollectorByName ((GetOrCreateGauge emptyRegistry "battery_level" "h").2)
        "battery_level" = some { kind := CollectorKind.gauge, id := 0 }
    ∧ (GetCollectorByName
          (applyRegOps ((GetOrCreateGauge emptyRegistry "battery_level" "h").2)
            [RegOp.getCounter "api_requests_total" "h2",
             RegOp.register "battery_level"
               { kind := CollectorKind.counter, id := 7 }])
          "battery_level" = some { kind := CollectorKind.gauge, id := 0 }
        ∧ (({ kind := CollectorKind.gauge, id := 0 } : Collector).kind =
              CollectorKind.gauge →
            GetOrCreateGauge
                (applyRegOps ((GetOrCreateGauge emptyRegistry "battery_level" "h").2)
                  [RegOp.getCounter "api_requests_total" "h2",
                   RegOp.register "battery_level"
                     { kind := CollectorKind.counter, id := 7 }])
                "battery_level" "h" =
              (some { kind := CollectorKind.gauge, id := 0 },
                applyRegOps ((GetOrCreateGauge emptyRegistry "battery_level" "h").2)
                  [RegOp.getCounter "api_requests_total" "h2",
                   RegOp.register "battery_level"
                     { kind := CollectorKind.counter, id := 7 }]))
        ∧ (∀ c2, Register ((GetOrCreateGauge emptyRegistry "battery_level" "h").2)
              "battery_level" c2 =
            (GetOrCreateGauge emptyRegistry "battery_level" "h").2)) :=
  ⟨by decide,
    registry_reuses_first_collector
      ((GetOrCreateGauge emptyRegistry "battery_level" "h").2) "battery_level"
      { kind := CollectorKind.gauge, id := 0 }
      [RegOp.getCounter "api_requests_total" "h2",
       RegOp.register "battery_level" { kind := CollectorKind.counter, id := 7 }]
      "h" (by decide)⟩

/-! ## Race-model lemmas -/

/-- Replacing one element changes `countP` by the element's contribution. -/
theorem countP_set_balance (l : List CallerState) (i : Nat)
    (t t2 : CallerState) (p : CallerState → Bool) (h : l.get? i = some t) :
    (l.set i t2).countP p + (if p t then 1 else 0) =
      l.countP p + (if p t2 then 1 else 0) := by
  induction l generalizing i with
  | nil => cases h
  | cons hd tl ih =>
    cases i with
    | zero =>
      simp only [List.get?] at h
      cases h
      simp only [List.set]
      rw [List.countP_cons, List.countP_cons]
      omega
    | succ j =>
      simp only [List.get?] at h
      simp only [List.set]
      rw [List.countP_cons, List.countP_cons]
      have := ih j h
      omega

theorem raceInv_init (n : Nat) : RaceInv (raceInit n) := by
  refine ⟨fun _ => ⟨?_, rfl, rfl, ?_⟩, fun htr => by simp [raceInit] at htr,
    ⟨fun _ => rfl, fun _ => rfl⟩⟩
  · exact List.countP_eq_zero.mpr (fun t ht => by
      rw [List.eq_of_mem_replicate ht]
      simp [isRegisteredCaller])
  · intro t ht
    rw [List.eq_of_mem_replicate ht]
    rfl

theorem raceInv_step (s : RaceState) (i : Nat) (h : RaceInv s) :
    RaceInv (raceStep s i) := by
  obtain ⟨hA, hB, hC⟩ := h
  cases hget : s.threads.get? i with
  | none =>
    have hstep : raceStep s i = s := by
      unfold raceStep
      rw [hget]
    rw [hstep]
    exact ⟨hA, hB, hC⟩
  | some t =>
    have hmem : t ∈ s.threads := List.get?_mem hget
    cases hpr : s.promReg with
    | false =>
      obtain ⟨hcnt0, hsw0, hst0, hnd⟩ := hA hpr
      have hmemP : ∀ t2 ∈ s.threads, isRegisteredCaller t2 = false := by
        intro t2 ht2
        have := List.countP_eq_zero.mp hcnt0 t2 ht2
        simpa using this
      cases t with
      | start =>
        have hstep : raceStep s i =
            { s with threads := s.threads.set i CallerState.missed } := by
          unfold raceStep
          rw [hget]
          simp only [stepCaller, hst0]
        rw [hstep]
        refine ⟨fun _ => ⟨?_, hsw0, hst0, ?_⟩, fun htr => by simp [hpr] at htr, hC⟩
        · exact List.countP_eq_zero.mpr (fun t2 ht2 => by
            rcases List.mem_or_eq_of_mem_set ht2 with hm | he
            · simpa using hmemP t2 hm
            · rw [he]; simp [isRegisteredCaller])
        · intro t2 ht2
          rcases List.mem_or_eq_of_mem_set ht2 with hm | he
          · exact hnd t2 hm
          · rw [he]; rfl
      | missed =>
        have hstep : raceStep s i =
            { s with threads := s.threads.set i (CallerState.created s.nextId),
                     nextId := s.nextId + 1 } := by
          unfold raceStep
          rw [hget]
          simp only [stepCaller]
        rw [hstep]
        refine ⟨fun _ => ⟨?_, hsw0, hst0, ?_⟩, fun htr => by simp [hpr] at htr, hC⟩
        · exact List.countP_eq_zero.mpr (fun t2 ht2 => by
            rcases List.mem_or_eq_of_mem_set ht2 with hm | he
            · simpa using hmemP t2 hm
            · rw [he]; simp [isRegisteredCaller])
        · intro t2 ht2
          rcases List.mem_or_eq_of_mem_set ht2 with hm | he
          · exact hnd t2 hm
          · rw [he]; rfl
      | created c =>
        have hstep : raceStep s i =
            { s with threads := s.threads.set i (CallerState.checked c) } := by
          unfold raceStep
          rw [hget]
          simp only [stepCaller, hst0]
        rw [hstep]
        refine ⟨fun _ => ⟨?_, hsw0, hst0, ?_⟩, fun htr => by simp [hpr] at htr, hC⟩
        · exact List.countP_eq_zero.mpr (fun t2 ht2 => by
            rcases List.mem_or_eq_of_mem_set ht2 with hm | he
            · simpa using hmemP t2 hm
            · rw [he]; simp [isRegisteredCaller])
        · intro t2 ht2
          rcases List.mem_or_eq_of_mem_set ht2 with hm | he
          · exact hnd t2 hm
          · rw [he]; rfl
      | checked c =>
        have hstep : raceStep s i =
            { s with threads := s.threads.set i (CallerState.registered c),
                     promReg := true } := by
          unfold raceStep
          rw [hget]
          simp only [stepCaller, hpr]
        rw [hstep]
        have hb := countP_set_balance s.threads i (CallerState.checked c)
          (CallerState.registered c) isRegisteredCaller hget
        simp [isRegisteredCaller] at hb
        refine ⟨fun hf => by simp at hf, fun _ => ?_, hC⟩
        dsimp only
        omega
      | registered c =>
        exact absurd (hmemP (CallerState.registered c) hmem)
          (by simp [isRegisteredCaller])
      | done c =>
        exact absurd (hnd (CallerState.done c) hmem) (by simp [isDoneCaller])
    | true =>
      have hBv := hB hpr
      cases t with
      | start =>
        cases hst : s.stored with
        | some c =>
          have hstep : raceStep s i =
              { s with threads := s.threads.set i (CallerState.done c) } := by
            unfold raceStep
            rw [hget]
            simp only [stepCaller, hst]
          rw [hstep]
          have hb := countP_set_balance s.threads i CallerState.start
            (CallerState.done c) isRegisteredCaller hget
          simp [isRegisteredCaller] at hb
          refine ⟨fun hf => by simp [hpr] at hf, fun _ => ?_, hC⟩
          dsimp only
          omega
        | none =>
          have hstep : raceStep s i =
              { s with threads := s.threads.set i CallerState.missed } := by
            unfold raceStep
            rw [hget]
            simp only [stepCaller, hst]
          rw [hstep]
          have hb := countP_set_balance s.threads i CallerState.start
            CallerState.missed isRegisteredCaller hget
          simp [isRegisteredCaller] at hb
          refine ⟨fun hf => by simp [hpr] at hf, fun _ => ?_, hC⟩
          dsimp only
          omega
      | missed =>
        have hstep : raceStep s i =
            { s with threads := s.threads.set i (CallerState.created s.nextId),
                     nextId := s.nextId + 1 } := by
          unfold raceStep
          rw [hget]
          simp only [stepCaller]
        rw [hstep]
        have hb := countP_set_balance s.threads i CallerState.missed
          (CallerState.created s.nextId) isRegisteredCaller hget
        simp [isRegisteredCaller] at hb
        refine ⟨fun hf => by simp [hpr] at hf, fun _ => ?_, hC⟩
        dsimp only
        omega
      | created c =>
        cases hst : s.stored with
        | some c2 =>
          have hstep : raceStep s i =
              { s with threads := s.threads.set i (CallerState.done c) } := by
            unfold raceStep
            rw [hget]
            simp only [stepCaller, hst]
          rw [hstep]
          have hb := countP_set_balance s.threads i (CallerState.created c)
            (CallerState.done c) isRegisteredCaller hget
          simp [isRegisteredCaller] at hb
          refine ⟨fun hf => by simp [hpr] at hf, fun _ => ?_, hC⟩
          dsimp only
          omega
        | none =>
          have hstep : raceStep s i =
              { s with threads := s.threads.set i (CallerState.checked c) } := by
            unfold raceStep
            rw [hget]
            simp only [stepCaller, hst]
          rw [hstep]
          have hb := countP_set_balance s.threads i (CallerState.created c)
            (CallerState.checked c) isRegisteredCaller hget
          simp [isRegisteredCaller] at hb
          refine ⟨fun hf => by simp [hpr] at hf, fun _ => ?_, hC⟩
          dsimp only
          omega
      | checked c =>
        have hstep : raceStep s i =
            { s with threads := s.threads.set i (CallerState.done c) } := by
          unfold raceStep
          rw [hget]
          simp only [stepCaller, hpr]
        rw [hstep]
        have hb := countP_set_balance s.threads i (CallerState.checked c)
          (CallerState.done c) isRegisteredCaller hget
        simp [isRegisteredCaller] at hb
        refine ⟨fun hf => by simp [hpr] at hf, fun _ => ?_, hC⟩
        dsimp only
        omega
      | registered c =>
        have hreg : 0 < s.threads.countP isRegisteredCaller := by
          rw [List.countP_pos_iff]
          exact ⟨CallerState.registered c, hmem, rfl⟩
        have hstep : raceStep s i =
            { s with threads := s.threads.set i (CallerState.done c),
                     stored := some c, storeWrites := s.storeWrites + 1 } := by
          unfold raceStep
          rw [hget]
          simp only [stepCaller]
        rw [hstep]
        have hb := countP_set_balance s.threads i (CallerState.registered c)
          (CallerState.done c) isRegisteredCaller hget
        simp [isRegisteredCaller] at hb
        refine ⟨fun hf => by simp [hpr] at hf, fun _ => by dsimp only; omega,
          ⟨fun hn => by simp at hn, fun hw => by simp at hw⟩⟩
      | done c =>
        have hstep : raceStep s i =
            { s with threads := s.threads.set i (CallerState.done c) } := by
          unfold raceStep
          rw [hget]
          simp only [stepCaller]
        rw [hstep]
        have hb := countP_set_balance s.threads i (CallerState.done c)
          (CallerState.done c) isRegisteredCaller hget
        simp [isRegisteredCaller] at hb
        refine ⟨fun hf => by simp [hpr] at hf, fun _ => ?_, hC⟩
        dsimp only
        omega

theorem raceInv_run (s : RaceState) (sched : List Nat) (h : RaceInv s) :
    RaceInv (raceRun s sched) := by
  induction sched generalizing s with
  | nil => exact h
  | cons i rest ih => exact ih (raceStep s i) (raceInv_step s i h)

theorem stepCaller_threads (s : RaceState) (t : CallerState) :
    (stepCaller s t).2.threads = s.threads := by
  cases t with
  | start => rcases hst : s.stored with _ | c <;> simp [stepCaller, hst]
  | missed => rfl
  | created c => rcases hst : s.stored with _ | c2 <;> simp [stepCaller, hst]
  | checked c => rcases hpr : s.promReg <;> simp [stepCaller, hpr]
  | registered c => rfl
  | done c => rfl

theorem raceRun_threads_length (s : RaceState) (sched : List Nat) :
    (raceRun s sched).threads.length = s.threads.length := by
  induction sched generalizing s with
  | nil => rfl
  | cons i rest ih =>
    rw [raceRun, ih]
    unfold raceStep
    cases hget : s.threads.get? i with
    | none => rfl
    | some t =>
      dsimp only
      rw [List.length_set, stepCaller_threads]

/-- C2 (amended): under every interleaving of N concurrent `GetOrCreateGauge`
callers for the same name, at most one collector is ever stored and
registered; every caller that returns does return a collector (no panic, no
surfaced error); and when all callers have returned (with N positive) exactly
one store happened and a collector is stored.  (What does NOT hold — see the
counterexample — is that every caller receives that stored instance.) -/
theorem race_registers_exactly_one_collector (n : Nat) (sched : List Nat) :
    (raceRun (raceInit n) sched).storeWrites ≤ 1
    ∧ (∀ t ∈ (raceRun (raceInit n) sched).threads,
        isDoneCaller t = true → ∃ c, t = CallerState.done c)
    ∧ ((∀ t ∈ (raceRun (raceInit n) sched).threads, isDoneCaller t = true) →
        0 < n →
        (raceRun (raceInit n) sched).storeWrites = 1
        ∧ ∃ c, (raceRun (raceInit n) sched).stored = some c) := by
  obtain ⟨hA, hB, hC⟩ := raceInv_run (raceInit n) sched (raceInv_init n)
  refine ⟨?_, ?_, ?_⟩
  · cases hpr : (raceRun (raceInit n) sched).promReg with
    | false =>
      obtain ⟨_, hsw0, _, _⟩ := hA hpr
      omega
    | true =>
      have hBv := hB hpr
      omega
  · intro t ht hdone
    cases t with
    | done c => exact ⟨c, rfl⟩
    | start => simp [isDoneCaller] at hdone
    | missed => simp [isDoneCaller] at hdone
    | created c => simp [isDoneCaller] at hdone
    | checked c => simp [isDoneCaller] at hdone
    | registered c => simp [isDoneCaller] at hdone
  · intro hall hn
    cases hpr : (raceRun (raceInit n) sched).promReg with
    | false =>
      obtain ⟨_, _, _, hnd⟩ := hA hpr
      have hlen := raceRun_threads_length (raceInit n) sched
      have hne : (raceRun (raceInit n) sched).threads ≠ [] := by
        intro hnil
        rw [hnil] at hlen
        simp [raceInit] at hlen
        omega
      obtain ⟨t, ht⟩ := List.exists_mem_of_ne_nil _ hne
      have h1 := hall t ht
      have h2 := hnd t ht
      rw [h1] at h2
      cases h2
    | true =>
      have hBv := hB hpr
      have hcnt0 :
          (raceRun (raceInit n) sched).threads.countP isRegisteredCaller = 0 := by
        rw [List.countP_eq_zero]
        intro t ht
        have hd := hall t ht
        cases t with
        | done c => simp [isRegisteredCaller]
        | start => simp [isDoneCaller] at hd
        | missed => simp [isDoneCaller] at hd
        | created c => simp [isDoneCaller] at hd
        | checked c => simp [isDoneCaller] at hd
        | registered c => simp [isDoneCaller] at hd
      have hsw : (raceRun (raceInit n) sched).storeWrites = 1 := by omega
      refine ⟨hsw, ?_⟩
      have hnn : ¬ ((raceRun (raceInit n) sched).stored = none) := by
        intro hnone
        have := hC.mp hnone
        omega
      rcases hres : (raceRun (raceInit n) sched).stored with _ | c
      · exact absurd hres hnn
      · exact ⟨c, rfl⟩

/-- Witness for `race_registers_exactly_one_collector`: the complete
two-caller schedule `raceSched` ends with both callers done, one store
executed and a collector stored. -/
theorem race_registers_exactly_one_collector_witness :
    (∀ t ∈ (raceRun (raceInit 2) raceSched).threads, isDoneCaller t = true)
    ∧ 0 < 2
    ∧ ((raceRun (raceInit 2) raceSched).storeWrites = 1
        ∧ ∃ c, (raceRun (raceInit 2) raceSched).stored = some c) :=
  ⟨by decide, by decide,
    (race_registers_exactly_one_collector 2 raceSched).2.2 (by decide) (by decide)⟩

/-- C2 counterexample: under the interleaving `raceSched` of two concurrent
`GetOrCreateGauge` callers for the same name, caller 0 stores and returns
instance 0 while caller 1 returns its own fresh instance 1 — so not every
caller receives the one surviving instance, and two instances were created
(nextId = 2), refuting "exactly one collector instance is created ... and
every caller receives that one surviving instance". -/
theorem race_losing_caller_gets_distinct_instance :
    (raceRun (raceInit 2) raceSched).threads =
      [CallerState.done 0, CallerState.done 1]
    ∧ (raceRun (raceInit 2) raceSched).stored = some 0
    ∧ (raceRun (raceInit 2) raceSched).nextId = 2
    ∧ (0 : Nat) ≠ 1 := by
  decide

/-! ## Rule isolation and firing (C3, C4) -/

/-- C3: an action error is logged in the trace but `Evaluate` has no error
channel at all, and the set of invoked rules is exactly the eligible ones, for
any rule set and metric — independent of what any action returns; in the
concrete three-rule set whose second action always errors, rules r1 and r3
are still invoked and their action events still emitted. -/
theorem evaluate_isolates_action_errors :
    (∀ (rules : List AlertRule) (metric : Metric),
      invokedRuleIDs (Evaluate rules metric) =
        (rules.filter (eligible metric)).map (fun r => r.ID))
    ∧ invokedRuleIDs (Evaluate isolationRules isolationMetric) =
        ["r1", "r2", "r3"]
    ∧ LogEvent.actionFailed "r2" "boom" ∈ Evaluate isolationRules isolationMetric
    ∧ LogEvent.actionOutput (ActionEvent.custom "a1")
        ∈ Evaluate isolationRules isolationMetric
    ∧ LogEvent.actionOutput (ActionEvent.custom "a3")
        ∈ Evaluate isolationRules isolationMetric :=
  ⟨invokedRuleIDs_Evaluate, by decide, by decide, by decide, by decide⟩

/-- C4: a stored rule's action is invoked exactly when its target metric name
equals the metric's name, it is enabled and its condition holds — a pure
function of the rule set and the incoming metric, so the action fires on every
call in which the condition holds. -/
theorem evaluate_fires_iff (rules : List AlertRule) (metric : Metric)
    (r : AlertRule) (hmem : r ∈ rules)
    (hnodup : (rules.map (fun x => x.ID)).Nodup) :
    r.ID ∈ invokedRuleIDs (Evaluate rules metric) ↔
      (r.MetricName = metric.Name ∧ r.Enabled = true
        ∧ r.Condition metric = true) := by
  rw [invokedRuleIDs_Evaluate]
  constructor
  · intro hin
    obtain ⟨r2, hr2f, hid⟩ := List.mem_map.mp hin
    have hr2 : r2 ∈ rules := List.mem_of_mem_filter hr2f
    have helig : eligible metric r2 = true := List.of_mem_filter hr2f
    have hr2r : r2 = r := List.inj_on_of_nodup_map hnodup hr2 hmem hid
    rw [hr2r] at helig
    simp only [eligible, Bool.and_eq_true, beq_iff_eq] at helig
    exact ⟨helig.1.1, helig.1.2, helig.2⟩
  · rintro ⟨h1, h2, h3⟩
    apply List.mem_map.mpr
    refine ⟨r, List.mem_filter.mpr ⟨hmem, ?_⟩, rfl⟩
    simp only [eligible, Bool.and_eq_true, beq_iff_eq]
    exact ⟨⟨h1, h2⟩, h3⟩

/-- Witness for `evaluate_fires_iff`: the first isolation rule in the
three-rule set, which is eligible for the sample metric and indeed invoked. -/
theorem evaluate_fires_iff_witness :
    isolationRule1 ∈ isolationRules
    ∧ (isolationRules.map (fun x => x.ID)).Nodup
    ∧ (isolationRule1.ID ∈
          invokedRuleIDs (Evaluate isolationRules isolationMetric) ↔
        (isolationRule1.MetricName = isolationMetric.Name
          ∧ isolationRule1.Enabled = true
          ∧ isolationRule1.Condition isolationMetric = true)) :=
  ⟨List.mem_cons_self isolationRule1 [isolationRule2, isolationRule3],
    by decide,
    evaluate_fires_iff isolationRules isolationMetric isolationRule1
      (List.mem_cons_self isolationRule1 [isolationRule2, isolationRule3])
      (by decide)⟩

/-! ## Converter dispatch (C5) -/

/-- When every matching converter succeeds, the loop invokes exactly the
matching converters, in order, and returns nil (at any starting index). -/
theorem convertFrom_all_success (v : MValue) (cs : List Converter) (i : Nat)
    (h : ∀ c ∈ cs, c.Match (getTypeName v) = true → c.Convert v = none) :
    convertFrom cs v i = (matchingIdxFrom cs (getTypeName v) i, none) := by
  induction cs generalizing i with
  | nil => rfl
  | cons c rest ih =>
    have hrest : ∀ c2 ∈ rest, c2.Match (getTypeName v) = true →
        c2.Convert v = none :=
      fun c2 h2 => h c2 (List.mem_cons_of_mem c h2)
    by_cases hm : c.Match (getTypeName v)
    · have hc := h c (List.mem_cons_self c rest) hm
      rw [convertFrom, matchingIdxFrom]
      simp [hm, hc, ih (i + 1) hrest]
    · rw [convertFrom, matchingIdxFrom]
      simp [hm, ih (i + 1) hrest]

/-- When the converters split as `cs1 ++ c :: cs2` with every matching
converter of `cs1` succeeding and `c` matching but failing, the loop invokes
the matching prefix and `c`, returns the error of `c`, and never reaches
`cs2`. -/
theorem convertFrom_stops_at_error (v : MValue) (cs1 : List Converter)
    (c : Converter) (cs2 : List Converter) (e : String) (i : Nat)
    (h1 : ∀ c2 ∈ cs1, c2.Match (getTypeName v) = true → c2.Convert v = none)
    (hm : c.Match (getTypeName v) = true) (he : c.Convert v = some e) :
    convertFrom (cs1 ++ c :: cs2) v i =
      (matchingIdxFrom cs1 (getTypeName v) i ++ [i + cs1.length], some e) := by
  induction cs1 generalizing i with
  | nil =>
    rw [List.nil_append, convertFrom, matchingIdxFrom]
    simp [hm, he]
  | cons c2 rest ih =>
    have hrest : ∀ c3 ∈ rest, c3.Match (getTypeName v) = true →
        c3.Convert v = none :=
      fun c3 h3 => h1 c3 (List.mem_cons_of_mem c2 h3)
    have harith : i + 1 + rest.length = i + (rest.length + 1) := by omega
    by_cases hm2 : c2.Match (getTypeName v)
    · have hc2 := h1 c2 (List.mem_cons_self c2 rest) hm2
      rw [List.cons_append, convertFrom, matchingIdxFrom]
      simp only [hm2, if_true, hc2]
      rw [ih (i + 1) hrest]
      simp [harith]
    · rw [List.cons_append, convertFrom, matchingIdxFrom]
      simp only [hm2, Bool.false_eq_true, if_false]
      rw [ih (i + 1) hrest]
      simp [harith]

/-- C5 counterexample: with two added converters both matching the value's
tag, whose first errors, `CombinedConverter.Convert` invokes only converter 0
and returns the error — not the full matching subset [0, 1] and not nil —
refuting "invokes exactly the subset of added sub-converters whose Match
returns true". -/
theorem combinedConverter_skips_after_error :
    CombinedConvert [failingConverter, okConverter] demoValue = ([0], some "boom")
    ∧ matchingIdx [failingConverter, okConverter] (getTypeName demoValue) = [0, 1]
    ∧ ([0] : List Nat) ≠ [0, 1] := by
  decide

/-- With no matching converter, the matching-index list is empty. -/
theorem matchingIdxFrom_nil_of_no_match (v : MValue) (cs : List Converter)
    (h : ∀ c ∈ cs, c.Match (getTypeName v) = false) (i : Nat) :
    matchingIdxFrom cs (getTypeName v) i = [] := by
  induction cs generalizing i with
  | nil => rfl
  | cons c rest ih =>
    rw [matchingIdxFrom]
    have hrest := ih (fun c2 h2 => h c2 (List.mem_cons_of_mem c h2)) (i + 1)
    simp [h c (List.mem_cons_self c rest), hrest]

/-- C5 (amended): `CombinedConverter.Convert` computes the value's type tag
and walks the added converters in registration order; when no matching
converter errors it invokes exactly the matching subset and returns nil; a
value matching no converter triggers no invocation and no error; and a
matching converter that errors stops the walk, its error is returned, and the
converters after it are never invoked. -/
theorem combinedConverter_dispatch (cs : List Converter) (v : MValue) :
    ((∀ c ∈ cs, c.Match (getTypeName v) = true → c.Convert v = none) →
      CombinedConvert cs v = (matchingIdx cs (getTypeName v), none))
    ∧ ((∀ c ∈ cs, c.Match (getTypeName v) = false) →
      CombinedConvert cs v = ([], none))
    ∧ (∀ (cs1 cs2 : List Converter) (c : Converter) (e : String),
        cs = cs1 ++ c :: cs2 →
        (∀ c2 ∈ cs1, c2.Match (getTypeName v) = true → c2.Convert v = none) →
        c.Match (getTypeName v) = true → c.Convert v = some e →
        CombinedConvert cs v =
          (matchingIdx cs1 (getTypeName v) ++ [cs1.length], some e)) := by
  refine ⟨?_, ?_, ?_⟩
  · intro h
    exact convertFrom_all_success v cs 0 h
  · intro h
    have hnone : ∀ c ∈ cs, c.Match (getTypeName v) = true →
        c.Convert v = none := by
      intro c hc hmc
      rw [h c hc] at hmc
      cases hmc
    rw [CombinedConvert, convertFrom_all_success v cs 0 hnone,
      matchingIdxFrom_nil_of_no_match v cs h 0]
  · intro cs1 cs2 c e hsplit h1 hm he
    rw [hsplit, CombinedConvert,
      convertFrom_stops_at_error v cs1 c cs2 e 0 h1 hm he]
    simp [matchingIdx]

/-- Witness for `combinedConverter_dispatch`: one matching-and-succeeding
converter plus one matching-and-failing converter; the error-free part is
exercised on the singleton list, the unmatched part on the empty list, and
the error-stop part on `[okConverter, failingConverter]`. -/
theorem combinedConverter_dispatch_witness :
    CombinedConvert [okConverter] demoValue =
        (matchingIdx [okConverter] (getTypeName demoValue), none)
    ∧ CombinedConvert [] demoValue = ([], none)
    ∧ CombinedConvert [okConverter, failingConverter] demoValue =
        (matchingIdx [okConverter] (getTypeName demoValue) ++ [1], some "boom") :=
  ⟨(combinedConverter_dispatch [okConverter] demoValue).1 (by decide),
    (combinedConverter_dispatch [] demoValue).2.1 (by decide),
    (combinedConverter_dispatch [okConverter, failingConverter] demoValue).2.2
      [okConverter] [] failingConverter "boom" rfl (by decide) (by decide)
      (by decide)⟩

/-! ## Poll-cycle error isolation (C6) -/

theorem processAPIData_append (l1 l2 : List MDevice) :
    processAPIData (l1 ++ l2) = processAPIData l1 ++ processAPIData l2 := by
  induction l1 with
  | nil => rfl
  | cons d rest ih =>
    rw [List.cons_append, processAPIData, processAPIData, ih, List.append_assoc]

/-- A device whose detail record fails: the error is logged, counted, and the
device is skipped. -/
theorem processDevice_detail_error (d : MDevice) (e : String)
    (h : d.detailErr = some e) :
    processDevice d =
      [ExpEvent.detailErrorLogged d.ID, ExpEvent.dataErrorInc,
       ExpEvent.deviceSkippedLogged d.ID] := by
  rw [processDevice]
  simp [convertDeviceDetailToMetrics, h]

/-- The sensor loop on an all-successful prefix followed by a failing sensor:
the prefix converts, the failure is logged and counted, the tail is never
reached. -/
theorem convertDeviceSensorsToMetrics_stops (devID : Nat) (ss1 : List MSensor)
    (s2 : MSensor) (ss2 : List MSensor) (e : String)
    (h1 : ∀ s3 ∈ ss1, s3.convErr = none) (h2 : s2.convErr = some e) :
    convertDeviceSensorsToMetrics devID (ss1 ++ s2 :: ss2) =
      (ss1.map (fun s3 => ExpEvent.sensorConverted devID s3.ID) ++
        [ExpEvent.sensorErrorLogged devID s2.ID, ExpEvent.dataErrorInc],
       some e) := by
  induction ss1 with
  | nil =>
    rw [List.nil_append, convertDeviceSensorsToMetrics]
    simp [h2]
  | cons s3 rest ih =>
    have hs3 := h1 s3 (List.mem_cons_self s3 rest)
    rw [List.cons_append, convertDeviceSensorsToMetrics]
    simp only [hs3]
    rw [ih (fun s4 h4 => h1 s4 (List.mem_cons_of_mem s3 h4))]
    simp

/-- C6 counterexample: one device with two sensors whose first sensor fails
to convert — the second sensor of the same device is never converted in that
cycle, refuting "processing of all remaining items in the same cycle —
including the remaining sensors of the same device — still takes place". -/
theorem sensor_error_aborts_remaining_sensors :
    processAPIData [demoDevice] =
      [ExpEvent.detailConverted 0, ExpEvent.sensorErrorLogged 0 0,
       ExpEvent.dataErrorInc, ExpEvent.deviceSkippedLogged 0]
    ∧ ExpEvent.sensorConverted 0 1 ∉ processAPIData [demoDevice] := by
  decide

/-- C6 (amended): a conversion error is isolated to the offending device —
logged, counted in the data-error counter, and every other device of the
cycle is still processed; but a failing device detail skips that device's
sensors, and a failing sensor aborts the remaining sensors of the same
device. -/
theorem processAPIData_isolates_errors_per_device :
    (∀ (ds1 : List MDevice) (d : MDevice) (ds2 : List MDevice),
      processAPIData (ds1 ++ d :: ds2) =
        processAPIData ds1 ++ processDevice d ++ processAPIData ds2)
    ∧ (∀ (ds1 : List MDevice) (d : MDevice) (ds2 : List MDevice) (e : String),
        d.detailErr = some e →
        processAPIData (ds1 ++ d :: ds2) =
          processAPIData ds1 ++
            [ExpEvent.detailErrorLogged d.ID, ExpEvent.dataErrorInc,
             ExpEvent.deviceSkippedLogged d.ID] ++ processAPIData ds2)
    ∧ (∀ (ds1 : List MDevice) (d : MDevice) (ds2 : List MDevice)
        (ss1 : List MSensor) (s2 : MSensor) (ss2 : List MSensor) (e : String),
        d.detailErr = none → d.sensors = ss1 ++ s2 :: ss2 →
        (∀ s3 ∈ ss1, s3.convErr = none) → s2.convErr = some e →
        processAPIData (ds1 ++ d :: ds2) =
          processAPIData ds1 ++
            (ExpEvent.detailConverted d.ID ::
              (ss1.map (fun s3 => ExpEvent.sensorConverted d.ID s3.ID) ++
                [ExpEvent.sensorErrorLogged d.ID s2.ID, ExpEvent.dataErrorInc,
                 ExpEvent.deviceSkippedLogged d.ID])) ++ processAPIData ds2) := by
  have hsplit : ∀ (ds1 : List MDevice) (d : MDevice) (ds2 : List MDevice),
      processAPIData (ds1 ++ d :: ds2) =
        processAPIData ds1 ++ processDevice d ++ processAPIData ds2 := by
    intro ds1 d ds2
    rw [processAPIData_append, processAPIData, List.append_assoc]
  refine ⟨hsplit, ?_, ?_⟩
  · intro ds1 d ds2 e he
    rw [hsplit, processDevice_detail_error d e he]
  · intro ds1 d ds2 ss1 s2 ss2 e hd hs h1 h2
    rw [hsplit]
    have hdev : processDevice d =
        ExpEvent.detailConverted d.ID ::
          (ss1.map (fun s3 => ExpEvent.sensorConverted d.ID s3.ID) ++
            [ExpEvent.sensorErrorLogged d.ID s2.ID, ExpEvent.dataErrorInc,
             ExpEvent.deviceSkippedLogged d.ID]) := by
      rw [processDevice]
      simp only [convertDeviceDetailToMetrics, hd, hs]
      rw [convertDeviceSensorsToMetrics_stops d.ID ss1 s2 ss2 e h1 h2]
      simp
    rw [hdev]

/-- Witness for `processAPIData_isolates_errors_per_device`: a healthy
device, then the detail-error device, then the sensor-error device — each
part of the theorem instantiated on this concrete cycle. -/
theorem processAPIData_isolates_errors_per_device_witness :
    processAPIData [demoDeviceDetailErr, demoDevice] =
        processAPIData [demoDeviceDetailErr] ++ processDevice demoDevice
          ++ processAPIData []
    ∧ (demoDeviceDetailErr.detailErr = some "bad schema"
        ∧ processAPIData [demoDeviceDetailErr, demoDevice] =
            processAPIData [] ++
              [ExpEvent.detailErrorLogged demoDeviceDetailErr.ID,
               ExpEvent.dataErrorInc,
               ExpEvent.deviceSkippedLogged demoDeviceDetailErr.ID] ++
              processAPIData [demoDevice])
    ∧ (demoDevice.detailErr = none
        ∧ demoDevice.sensors =
            [] ++ ({ ID := 0, convErr := some "missing field" } : MSensor) ::
              [{ ID := 1, convErr := none }]
        ∧ processAPIData [demoDeviceDetailErr, demoDevice] =
            processAPIData [demoDeviceDetailErr] ++
              (ExpEvent.detailConverted demoDevice.ID ::
                (([] : List MSensor).map
                    (fun s3 => ExpEvent.sensorConverted demoDevice.ID s3.ID) ++
                  [ExpEvent.sensorErrorLogged demoDevice.ID 0,
                   ExpEvent.dataErrorInc,
                   ExpEvent.deviceSkippedLogged demoDevice.ID])) ++
              processAPIData []) :=
  ⟨(processAPIData_isolates_errors_per_device).1 [demoDeviceDetailErr]
      demoDevice [],
    ⟨by decide,
      (processAPIData_isolates_errors_per_device).2.1 [] demoDeviceDetailErr
        [demoDevice] "bad schema" (by decide)⟩,
    ⟨by decide, by decide,
      (processAPIData_isolates_errors_per_device).2.2 [demoDeviceDetailErr]
        demoDevice [] [] { ID := 0, convErr := some "missing field" }
        [{ ID := 1, convErr := none }] "missing field" (by decide) (by decide)
        (by decide) (by decide)⟩⟩

/-! ## Device-state mapping (C7) -/

/-- C7 counterexample: `StateValue` maps the state string "has_published" to
1.0 (online), not to -1.0 — refuting "any other state string maps to -1.0"
for strings other than online/offline/sleeping. -/
theorem stateValue_has_published_is_online :
    StateValue { State := "has_published" } = 1
    ∧ StateValue { State := "has_published" } ≠ -1 := by
  have h : StateValue { State := "has_published" } = DeviceStateOnline := rfl
  rw [h, DeviceStateOnline]
  norm_num

/-- C7 (amended): `DeviceDetail.StateValue` maps "online" and "has_published"
to 1.0, "offline" to 0.0, "sleeping" to 0.5, and every other state string to
-1.0. -/
theorem stateValue_enumeration (d : DeviceDetail) :
    ((d.State = "online" ∨ d.State = "has_published") → StateValue d = 1)
    ∧ (d.State = "offline" → StateValue d = 0)
    ∧ (d.State = "sleeping" → StateValue d = 1/2)
    ∧ (d.State ≠ "online" → d.State ≠ "has_published" → d.State ≠ "offline" →
        d.State ≠ "sleeping" → StateValue d = -1) := by
  refine ⟨?_, ?_, ?_, ?_⟩
  · rintro (h | h) <;>
      simp [StateValue, h, DeviceStateOnline] <;> norm_num
  · intro h
    simp [StateValue, h, DeviceStateOffline]
    norm_num
  · intro h
    simp [StateValue, h, DeviceStateSleeping]
    norm_num
  · intro h1 h2 h3 h4
    simp [StateValue, h1, h2, h3, h4, DeviceStateUnknown]
    norm_num

/-- Witness for `stateValue_enumeration`: each branch applied at a concrete
device state, including an arbitrary unmapped state string. -/
theorem stateValue_enumeration_witness :
    StateValue { State := "online" } = 1
    ∧ StateValue { State := "offline" } = 0
    ∧ StateValue { State := "sleeping" } = 1/2
    ∧ StateValue { State := "rebooting" } = -1 :=
  ⟨(stateValue_enumeration { State := "online" }).1 (Or.inl rfl),
    (stateValue_enumeration { State := "offline" }).2.1 rfl,
    (stateValue_enumeration { State := "sleeping" }).2.2.1 rfl,
    (stateValue_enumeration { State := "rebooting" }).2.2.2 (by decide)
      (by decide) (by decide) (by decide)⟩

/-! ## Threshold tolerance (C9) -/

/-- C9: `ThresholdEquals(target)` holds exactly when the absolute difference
of the metric's value and the target is at most `DefaultFloatTolerance` =
0.0001; in particular `ThresholdEquals(10.0)` accepts 10.00005 and rejects
10.01. -/
theorem thresholdEquals_tolerance (target : ℚ) (metric : Metric) :
    (ThresholdEquals target metric = true ↔
      |metric.Value - target| ≤ DefaultFloatTolerance)
    ∧ ThresholdEquals 10 { Name := "Battery SCK", Value := 10.00005 } = true
    ∧ ThresholdEquals 10 { Name := "Battery SCK", Value := 10.01 } = false := by
  refine ⟨?_, ?_, ?_⟩
  · simp [ThresholdEquals, FloatEquals]
  · simp only [ThresholdEquals, FloatEquals, DefaultFloatTolerance,
      decide_eq_true_eq]
    rw [abs_sub_le_iff]
    constructor <;> norm_num
  · simp only [ThresholdEquals, FloatEquals, DefaultFloatTolerance,
      decide_eq_false_iff_not, abs_sub_le_iff, not_and_or]
    left
    norm_num

/-! ## Configured battery rules (C8) -/

/-- C8: with the configured rules, a "Battery SCK" reading of 12.3 invokes
exactly the `battery_low` rule and sends exactly one notification (its notify
action fires once); a reading of 16.0 invokes only `battery_ok` and sends
nothing; a reading of 8.0 invokes only `battery_critical_low` and sends its
notification instead. -/
theorem battery_rules_scenario (topic : String) :
    invokedRuleIDs (Evaluate (initAlertEngine DefaultBatterySensorName topic)
        { Name := "Battery SCK", Value := 12.3 }) = ["battery_low"]
    ∧ sentNotifications
        (Evaluate (initAlertEngine DefaultBatterySensorName topic)
          { Name := "Battery SCK", Value := 12.3 }) =
        [(topic, "Alert: Battery Level Low", "Battery level is low")]
    ∧ invokedRuleIDs (Evaluate (initAlertEngine DefaultBatterySensorName topic)
        { Name := "Battery SCK", Value := 16.0 }) = ["battery_ok"]
    ∧ sentNotifications
        (Evaluate (initAlertEngine DefaultBatterySensorName topic)
          { Name := "Battery SCK", Value := 16.0 }) = []
    ∧ invokedRuleIDs (Evaluate (initAlertEngine DefaultBatterySensorName topic)
        { Name := "Battery SCK", Value := 8.0 }) = ["battery_critical_low"]
    ∧ sentNotifications
        (Evaluate (initAlertEngine DefaultBatterySensorName topic)
          { Name := "Battery SCK", Value := 8.0 }) =
        [(topic, "Alert: Battery Level Low", "Battery level is critically low")] := by
  refine ⟨?_, ?_, ?_, ?_, ?_, ?_⟩ <;>
    norm_num [initAlertEngine, AddRule, Evaluate, evalRule, invokedRuleIDs,
      invokedOf, sentNotifications, notifyOf, LogAction, SendNotificationAction,
      MultiAction, runActions, ThresholdEquals, FloatEquals,
      DefaultFloatTolerance, DeviceStateOnline, DeviceStateOffline,
      DefaultBatterySensorName, DeviceStateMetricName, List.filterMap] <;>
    rfl

/-- C10: a name first created as a counter and then requested through
`GetOrCreateGauge` hits the unchecked type assertion `gauge.(prometheus.Gauge)`
on the stored collector and panics (modelled as the `none` result) instead of
returning a usable collector or an error. -/
theorem getOrCreateGauge_after_counter_panics :
    (GetOrCreateGauge
        ((GetOrCreateCounter emptyRegistry "api_requests_total" "help").2)
        "api_requests_total" "help").1 = none := by
  decide

end Smcprober
